import Mathlib

/-!
Verification of the intarsia image-transformation pipeline.

This file is a shallow embedding of the algorithmic core of the repository:

* `src/src/utils.rs` — `colour_distance`, `min_index`, `set_closest_colour`,
  `add_grid_to_image` (and the axis plotting entry point);
* `src/intarsia/src/intarsia.rs` — `reduce_colours` and `transform_image`;
* `src/intarsia/src/err.rs` — the `Error` enum.

Modelling conventions:

* `Rgb<u8>` pixels are modelled as triples of naturals (channel values
  0..255 in the program; the embedding does not need the upper bound).
* `colour_distance` in the source returns
  `sqrt((r2-r1)^2 + (g2-g1)^2 + (b2-b1)^2)` as an `f32`.  Here it is
  modelled as the squared distance over the integers.  For channel values
  below 256 every difference, square and 3-term sum (at most 3*255^2 =
  195075 < 2^24) is computed exactly in `f32`, and `f32::sqrt` is correctly
  rounded and injective on those integers (consecutive square roots near
  441 are about 1.1e-3 apart while an ulp is about 5e-5), so the `<`
  comparisons performed by `min_index` on the rounded square roots agree
  exactly with `<` on the squared integer distances used here.
* Rust panics (out-of-bounds slice or index) are modelled as `Option.none`;
  all fallible code returns `Option` or `Except`.
* The external image-library collaborators used by `transform_image`
  (Gaussian blur, nearest-neighbour `resize_exact`, PNG save, the palette
  extractor and the plotters backend) are abstracted as fields of a
  `Stages` record; `transform_image` itself is embedded line by line.
-/

namespace Intarsia

/-- A pixel colour, as in `image::Rgb<u8>`: one value per RGB channel. -/
structure Rgb where
  r : ℕ
  g : ℕ
  b : ℕ
deriving DecidableEq, Repr

instance : Inhabited Rgb := ⟨⟨0, 0, 0⟩⟩

/-- The colour `image::Rgba([0u8, 0u8, 0u8, 255u8])` used for grid lines
(the alpha channel is irrelevant on RGB buffers). -/
def blackRgb : Rgb := ⟨0, 0, 0⟩

/-- An all-white pixel, used for concrete test buffers. -/
def whiteRgb : Rgb := ⟨255, 255, 255⟩

/-- Embedding of `colour_distance` from `src/src/utils.rs`, as the squared
Euclidean RGB distance over ℤ (the source returns the `f32` square root of
this value; see the header comment for why all comparisons agree). -/
def colour_distance (c1 c2 : Rgb) : ℕ :=
  (((c1.r : ℤ) - c2.r) ^ 2 + ((c1.g : ℤ) - c2.g) ^ 2 + ((c1.b : ℤ) - c2.b) ^ 2).toNat

lemma colour_distance_self (c : Rgb) : colour_distance c c = 0 := by
  simp [colour_distance]

lemma colour_distance_eq_zero {c1 c2 : Rgb} (h : colour_distance c1 c2 = 0) : c1 = c2 := by
  unfold colour_distance at h
  have h0 : ((c1.r : ℤ) - c2.r) ^ 2 + ((c1.g : ℤ) - c2.g) ^ 2 + ((c1.b : ℤ) - c2.b) ^ 2 ≤ 0 :=
    Int.toNat_eq_zero.mp h
  have hr2 := sq_nonneg ((c1.r : ℤ) - c2.r)
  have hg2 := sq_nonneg ((c1.g : ℤ) - c2.g)
  have hb2 := sq_nonneg ((c1.b : ℤ) - c2.b)
  have hr : ((c1.r : ℤ) - c2.r) ^ 2 = 0 := le_antisymm (by linarith) hr2
  have hg : ((c1.g : ℤ) - c2.g) ^ 2 = 0 := le_antisymm (by linarith) hg2
  have hb : ((c1.b : ℤ) - c2.b) ^ 2 = 0 := le_antisymm (by linarith) hb2
  have hr' : (c1.r : ℤ) = c2.r := by
    have := sq_eq_zero_iff.mp hr
    linarith
  have hg' : (c1.g : ℤ) = c2.g := by
    have := sq_eq_zero_iff.mp hg
    linarith
  have hb' : (c1.b : ℤ) = c2.b := by
    have := sq_eq_zero_iff.mp hb
    linarith
  obtain ⟨r1, g1, b1⟩ := c1
  obtain ⟨r2, g2, b2⟩ := c2
  simp only [Rgb.mk.injEq]
  exact ⟨Nat.cast_injective hr', Nat.cast_injective hg', Nat.cast_injective hb'⟩

/-- Embedding of `min_index` from `src/src/utils.rs`:

    let mut i = 0;
    for (j, &value) in array.iter().enumerate() {
        if value < array[i] { i = j; }
    }
    i

The loop is a fold over the enumerated list; the comparison reads the full
array at the current best index, exactly as the source does. -/
def min_index (array : List ℕ) : ℕ :=
  array.enum.foldl (fun i p => if p.2 < array.getD i 0 then p.1 else i) 0

lemma getD_drop_cons : ∀ (l : List ℕ) (k a : ℕ) (t : List ℕ),
    l.drop k = a :: t → l.getD k 0 = a := by
  intro l k
  induction k generalizing l with
  | zero =>
    intro a t h
    simp only [List.drop_zero] at h
    subst h
    rfl
  | succ k ih =>
    intro a t h
    cases l with
    | nil => simp at h
    | cons x l =>
      simp only [List.drop_succ_cons] at h
      simpa using ih l a t h

lemma drop_succ_of_drop_cons : ∀ (l : List ℕ) (k a : ℕ) (t : List ℕ),
    l.drop k = a :: t → l.drop (k + 1) = t := by
  intro l k
  induction k generalizing l with
  | zero =>
    intro a t h
    simp only [List.drop_zero] at h
    subst h
    rfl
  | succ k ih =>
    intro a t h
    cases l with
    | nil => simp at h
    | cons x l =>
      simp only [List.drop_succ_cons] at h
      simpa using ih l a t h

lemma min_index_go_spec (l : List ℕ) (t : List ℕ) :
    ∀ (k acc res : ℕ), l.drop k = t → k ≤ l.length → acc < k →
    (∀ j, j < k → l.getD acc 0 ≤ l.getD j 0) →
    (∀ j, j < acc → l.getD acc 0 < l.getD j 0) →
    (List.enumFrom k t).foldl (fun i p => if p.2 < l.getD i 0 then p.1 else i) acc = res →
    res < l.length ∧ (∀ j, j < l.length → l.getD res 0 ≤ l.getD j 0) ∧
      (∀ j, j < res → l.getD res 0 < l.getD j 0) := by
  induction t with
  | nil =>
    intro k acc res hdrop hk hacc hmin hstrict hfold
    have hlen : l.length - k = 0 := by
      have := congrArg List.length hdrop
      simpa [List.length_drop] using this
    have hkl : k = l.length := by omega
    simp only [List.enumFrom, List.foldl_nil] at hfold
    subst hfold
    subst hkl
    exact ⟨hacc, hmin, hstrict⟩
  | cons a t ih =>
    intro k acc res hdrop hk hacc hmin hstrict hfold
    have hklen : k < l.length := by
      have := congrArg List.length hdrop
      simp only [List.length_drop, List.length_cons] at this
      omega
    have hgetk : l.getD k 0 = a := getD_drop_cons l k a t hdrop
    have hdrop' : l.drop (k + 1) = t := drop_succ_of_drop_cons l k a t hdrop
    simp only [List.enumFrom, List.foldl_cons] at hfold
    by_cases hlt : a < l.getD acc 0
    · rw [if_pos hlt] at hfold
      refine ih (k + 1) k res hdrop' (by omega) (by omega) ?_ ?_ hfold
      · intro j hj
        rw [hgetk]
        rcases Nat.lt_succ_iff_lt_or_eq.mp hj with hj' | hj'
        · exact le_of_lt (lt_of_lt_of_le hlt (hmin j hj'))
        · rw [hj', hgetk]
      · intro j hj
        rw [hgetk]
        exact lt_of_lt_of_le hlt (hmin j hj)
    · rw [if_neg hlt] at hfold
      refine ih (k + 1) acc res hdrop' (by omega) (by omega) ?_ hstrict hfold
      intro j hj
      rcases Nat.lt_succ_iff_lt_or_eq.mp hj with hj' | hj'
      · exact hmin j hj'
      · rw [hj', hgetk]
        exact not_lt.mp hlt

/-- The source's `min_index` returns the first index of the minimum of a
non-empty array: the value there is a lower bound of all entries, and every
strictly earlier entry is strictly larger. -/
theorem min_index_spec (l : List ℕ) (h : l ≠ []) :
    min_index l < l.length ∧ (∀ j, j < l.length → l.getD (min_index l) 0 ≤ l.getD j 0) ∧
      (∀ j, j < min_index l → l.getD (min_index l) 0 < l.getD j 0) := by
  obtain ⟨a, t, rfl⟩ := List.exists_cons_of_ne_nil h
  unfold min_index
  simp only [List.enum_cons, List.foldl_cons, List.getD_cons_zero, ite_self]
  exact min_index_go_spec (a :: t) t 1 0 _ rfl (by simp) Nat.one_pos
    (fun j hj => by
      have : j = 0 := by omega
      subst this
      exact le_refl _)
    (fun j hj => by omega) rfl

/-- Embedding of `set_closest_colour` from `src/src/utils.rs`: the distances
to every palette entry are collected, `min_index` picks an index, and the
pixel is overwritten with `palette[min_index]`.  Indexing an empty palette
panics in Rust; the panic is `none` here. -/
def set_closest_colour (p : Rgb) (palette : List Rgb) : Option Rgb :=
  let distances := palette.map (fun x => colour_distance x p)
  palette.get? (min_index distances)

/-- The per-pixel quantization loop of `reduce_colours`
(`for pixel in quantized_image.enumerate_pixels_mut() { set_closest_colour(pixel, ..) }`):
every pixel of the buffer is independently replaced by its closest palette
colour.  A panic at any pixel (empty palette) is `none`. -/
def quantize : List Rgb → List Rgb → Option (List Rgb)
  | [], _ => some []
  | p :: ps, palette => do
    let c ← set_closest_colour p palette
    let cs ← quantize ps palette
    pure (c :: cs)

/-- Embedding of the palette handling of `reduce_colours` from
`src/intarsia/src/intarsia.rs`: the extractor's palette is sliced as
`&palette[0..(colours as usize)]` — a Rust slice that panics when `colours`
exceeds the palette length — and the buffer is quantized against the slice. -/
def reduce_colours (buf extracted : List Rgb) (colours : ℕ) : Option (List Rgb) :=
  if colours ≤ extracted.length then quantize buf (extracted.take colours) else none

lemma get?_eq_some_getD : ∀ (l : List Rgb) (j : ℕ), j < l.length →
    l.get? j = some (l.getD j default) := by
  intro l
  induction l with
  | nil => intro j hj; simp at hj
  | cons a t ih =>
    intro j hj
    cases j with
    | zero => rfl
    | succ j =>
      simp only [List.length_cons, Nat.succ_lt_succ_iff] at hj
      simpa using ih j hj

lemma getD_map_dist (p : Rgb) : ∀ (palette : List Rgb) (j : ℕ), j < palette.length →
    (palette.map (fun x => colour_distance x p)).getD j 0 =
      colour_distance (palette.getD j default) p := by
  intro palette
  induction palette with
  | nil => intro j hj; simp at hj
  | cons c cs ih =>
    intro j hj
    cases j with
    | zero => rfl
    | succ j =>
      simp only [List.length_cons, Nat.succ_lt_succ_iff] at hj
      simpa using ih j hj

/-- C1.  For every pixel and every non-empty palette, `set_closest_colour`
replaces the pixel with a palette entry whose Euclidean RGB distance
(the square root of the squared distance, as the source computes it) is
minimal over the palette, and among all entries attaining the minimal
distance the one with the smallest index is chosen.  `set_closest_colour`
is a pure function of its two inputs, so identical inputs always produce
identical outputs. -/
theorem set_closest_colour_min (p : Rgb) (palette : List Rgb) (hne : palette ≠ []) :
    ∃ i, i < palette.length ∧
      set_closest_colour p palette = some (palette.getD i default) ∧
      (∀ j, j < palette.length →
        Real.sqrt (colour_distance (palette.getD i default) p : ℝ) ≤
          Real.sqrt (colour_distance (palette.getD j default) p : ℝ)) ∧
      (∀ j, j < palette.length →
        colour_distance (palette.getD j default) p =
          colour_distance (palette.getD i default) p → i ≤ j) := by
  have hmapne : palette.map (fun x => colour_distance x p) ≠ [] := by
    simpa using hne
  obtain ⟨hlt, hmin, hstrict⟩ := min_index_spec _ hmapne
  rw [List.length_map] at hlt
  refine ⟨min_index (palette.map (fun x => colour_distance x p)), hlt, ?_, ?_, ?_⟩
  · unfold set_closest_colour
    exact get?_eq_some_getD palette _ hlt
  · intro j hj
    have h1 := hmin j (by simpa [List.length_map] using hj)
    rw [getD_map_dist p palette _ hlt, getD_map_dist p palette j hj] at h1
    exact Real.sqrt_le_sqrt (by exact_mod_cast h1)
  · intro j hj heq
    by_contra hcon
    have hjlt : j < min_index (palette.map (fun x => colour_distance x p)) := by omega
    have h2 := hstrict j hjlt
    rw [getD_map_dist p palette _ hlt, getD_map_dist p palette j hj] at h2
    omega

/-- C1 witness: the pixel (5,5,5) is exactly equidistant (squared distance
75) from the palette entries (0,0,0) and (10,10,10); the theorem applies
and, as its tie conjunct shows, the chosen index is the first one. -/
theorem set_closest_colour_min_witness :
    ∃ i, i < ([⟨0, 0, 0⟩, ⟨10, 10, 10⟩] : List Rgb).length ∧
      set_closest_colour ⟨5, 5, 5⟩ [⟨0, 0, 0⟩, ⟨10, 10, 10⟩] =
        some (([⟨0, 0, 0⟩, ⟨10, 10, 10⟩] : List Rgb).getD i default) ∧
      (∀ j, j < ([⟨0, 0, 0⟩, ⟨10, 10, 10⟩] : List Rgb).length →
        Real.sqrt (colour_distance (([⟨0, 0, 0⟩, ⟨10, 10, 10⟩] : List Rgb).getD i default)
            ⟨5, 5, 5⟩ : ℝ) ≤
          Real.sqrt (colour_distance (([⟨0, 0, 0⟩, ⟨10, 10, 10⟩] : List Rgb).getD j default)
            ⟨5, 5, 5⟩ : ℝ)) ∧
      (∀ j, j < ([⟨0, 0, 0⟩, ⟨10, 10, 10⟩] : List Rgb).length →
        colour_distance (([⟨0, 0, 0⟩, ⟨10, 10, 10⟩] : List Rgb).getD j default) ⟨5, 5, 5⟩ =
          colour_distance (([⟨0, 0, 0⟩, ⟨10, 10, 10⟩] : List Rgb).getD i default) ⟨5, 5, 5⟩ →
          i ≤ j) :=
  set_closest_colour_min ⟨5, 5, 5⟩ [⟨0, 0, 0⟩, ⟨10, 10, 10⟩] (by decide)

lemma set_closest_colour_mem {p c : Rgb} {palette : List Rgb}
    (h : set_closest_colour p palette = some c) : c ∈ palette := by
  unfold set_closest_colour at h
  exact List.get?_mem h

lemma getD_eq_of_get {l : List Rgb} {k : ℕ} {hk : k < l.length} {c : Rgb}
    (h : l.get ⟨k, hk⟩ = c) : l.getD k default = c := by
  have := get?_eq_some_getD l k hk
  rw [List.get?_eq_get hk, h] at this
  exact (Option.some_inj.mp this).symm

/-- A pixel that is already a palette colour is left unchanged by
`set_closest_colour`: its distance to itself is 0, which is the unique
minimal distance value, and any palette entry at distance 0 is equal to the
pixel. -/
lemma set_closest_colour_self {c : Rgb} {palette : List Rgb} (h : c ∈ palette) :
    set_closest_colour c palette = some c := by
  have hne : palette ≠ [] := List.ne_nil_of_mem h
  obtain ⟨⟨k, hk⟩, hget⟩ := List.get_of_mem h
  have hkD : palette.getD k default = c := getD_eq_of_get hget
  have hmapne : palette.map (fun x => colour_distance x c) ≠ [] := by
    simpa using hne
  obtain ⟨hlt, hmin, _⟩ := min_index_spec _ hmapne
  rw [List.length_map] at hlt
  have hmink := hmin k (by simpa [List.length_map] using hk)
  rw [getD_map_dist c palette _ hlt, getD_map_dist c palette k hk, hkD,
    colour_distance_self] at hmink
  have hzero : colour_distance (palette.getD (min_index
      (palette.map (fun x => colour_distance x c))) default) c = 0 := by omega
  have := colour_distance_eq_zero hzero
  unfold set_closest_colour
  rw [get?_eq_some_getD palette _ hlt, this]

lemma quantize_mem_fixed : ∀ (buf q : List Rgb) (palette : List Rgb),
    quantize buf palette = some q → quantize q palette = some q := by
  intro buf
  induction buf with
  | nil =>
    intro q palette h
    obtain rfl : ([] : List Rgb) = q := Option.some_inj.mp h
    rfl
  | cons p ps ih =>
    intro q palette h
    simp only [quantize, Option.bind_eq_bind, Option.bind_eq_some, Option.pure_def,
      Option.some.injEq] at h
    obtain ⟨c, hc, cs, hcs, rfl⟩ := h
    have hcfix : set_closest_colour c palette = some c :=
      set_closest_colour_self (set_closest_colour_mem hc)
    have hcsfix := ih cs palette hcs
    simp only [quantize, Option.bind_eq_bind, Option.bind_eq_some, Option.pure_def,
      Option.some.injEq]
    exact ⟨c, hcfix, cs, hcsfix, rfl⟩

/-- C7.  Quantization is idempotent: quantizing a buffer a second time with
the same (duplicate-free, as the claim states) palette returns the first
result unchanged, because every output pixel is a palette colour and a
palette colour is at distance 0 from itself, the unique minimum. -/
theorem quantize_idem (buf palette : List Rgb) (_hnd : palette.Nodup) :
    (quantize buf palette).bind (fun q => quantize q palette) = quantize buf palette := by
  cases hq : quantize buf palette with
  | none => rfl
  | some q =>
    show quantize q palette = some q
    exact quantize_mem_fixed buf q palette hq

/-- C7 witness: a concrete two-colour palette and one-pixel buffer. -/
theorem quantize_idem_witness :
    (quantize [⟨1, 2, 3⟩] [⟨0, 0, 0⟩, ⟨255, 255, 255⟩]).bind
        (fun q => quantize q [⟨0, 0, 0⟩, ⟨255, 255, 255⟩]) =
      quantize [⟨1, 2, 3⟩] [⟨0, 0, 0⟩, ⟨255, 255, 255⟩] :=
  quantize_idem [⟨1, 2, 3⟩] [⟨0, 0, 0⟩, ⟨255, 255, 255⟩] (by decide)

lemma min_index_singleton (d : ℕ) : min_index [d] = 0 := by
  simp [min_index, List.enum]

lemma quantize_replicate (buf : List Rgb) (c : Rgb) :
    quantize buf [c] = some (List.replicate buf.length c) := by
  induction buf with
  | nil => rfl
  | cons p ps ih =>
    have hset : set_closest_colour p [c] = some c := by
      have h1 : min_index [colour_distance c p] = 0 := min_index_singleton _
      simp only [set_closest_colour, List.map_cons, List.map_nil]
      rw [h1]
      rfl
    simp only [quantize, Option.bind_eq_bind, hset, Option.some_bind, ih,
      List.length_cons, List.replicate_succ]
    rfl

/-- C8.  With requested palette size K = 1 and at least one extracted
colour, `reduce_colours` maps every pixel of any buffer to the sole palette
entry `extracted[0]`: the output is a single solid colour independent of
the buffer's contents. -/
theorem reduce_colours_single (buf extracted : List Rgb) (hne : extracted ≠ []) :
    reduce_colours buf extracted 1 =
      some (List.replicate buf.length (extracted.getD 0 default)) := by
  obtain ⟨a, t, rfl⟩ := List.exists_cons_of_ne_nil hne
  unfold reduce_colours
  rw [if_pos (by simp)]
  simpa using quantize_replicate buf a

/-- C8 witness: a two-pixel buffer collapses to two copies of the first
extracted colour. -/
theorem reduce_colours_single_witness :
    reduce_colours [⟨200, 0, 0⟩, ⟨0, 200, 0⟩] [⟨3, 4, 5⟩, ⟨9, 9, 9⟩] 1 =
      some (List.replicate ([⟨200, 0, 0⟩, ⟨0, 200, 0⟩] : List Rgb).length
        (([⟨3, 4, 5⟩, ⟨9, 9, 9⟩] : List Rgb).getD 0 default)) :=
  reduce_colours_single [⟨200, 0, 0⟩, ⟨0, 200, 0⟩] [⟨3, 4, 5⟩, ⟨9, 9, 9⟩] (by decide)

/-- C9.  The quantizer reads only the first K extracted palette entries:
two extractor outputs that agree on their first K entries produce identical
`reduce_colours` results on every buffer, whatever they hold from index K
on.  (Equal K-prefixes force the out-of-range slice panic to agree too.) -/
theorem reduce_colours_take_congr (buf e1 e2 : List Rgb) (K : ℕ)
    (h : e1.take K = e2.take K) :
    reduce_colours buf e1 K = reduce_colours buf e2 K := by
  have hlen : (K ≤ e1.length) ↔ (K ≤ e2.length) := by
    have := congrArg List.length h
    simp only [List.length_take] at this
    omega
  unfold reduce_colours
  by_cases h1 : K ≤ e1.length
  · rw [if_pos h1, if_pos (hlen.mp h1), h]
  · rw [if_neg h1, if_neg (fun hh => h1 (hlen.mpr hh))]

/-- C9 witness: with K = 1 the quantizer cannot tell apart two extractor
outputs differing only from index 1 on. -/
theorem reduce_colours_take_congr_witness :
    reduce_colours [⟨7, 7, 7⟩] [⟨0, 0, 0⟩, ⟨1, 1, 1⟩] 1 =
      reduce_colours [⟨7, 7, 7⟩] [⟨0, 0, 0⟩, ⟨9, 9, 9⟩] 1 :=
  reduce_colours_take_congr [⟨7, 7, 7⟩] [⟨0, 0, 0⟩, ⟨1, 1, 1⟩] [⟨0, 0, 0⟩, ⟨9, 9, 9⟩] 1
    (by decide)

/-- C3 counterexample.  The claim says a requested palette size of K = 0,
or larger than the extracted palette, makes `reduce_colours` fail with a
`PaletteTooSmall` error result "rather than crashing".  The code has no
such check (and the crate's `Error` enum has no `PaletteTooSmall` variant
at all): with K = 0 the slice `&palette[0..0]` is empty and the first
pixel's `palette[min_index]` indexing panics, and with K = 2 against a
1-colour palette the slice expression `&palette[0..2]` itself panics.
Both concrete runs crash (`none`), returning no error result of any kind. -/
theorem reduce_colours_crash_counterexample :
    reduce_colours [⟨10, 20, 30⟩] [⟨255, 0, 0⟩] 0 = none ∧
      reduce_colours [⟨10, 20, 30⟩] [⟨255, 0, 0⟩] 2 = none := by
  constructor <;> rfl

/-- C3 amended.  `reduce_colours` performs no palette-size validation: when
the requested palette size K is 0 (and the buffer has at least one pixel),
or K exceeds the number of extracted colours, it panics on an out-of-bounds
index or slice — modelled as `none` — instead of returning an error result. -/
theorem reduce_colours_out_of_bounds (buf extracted : List Rgb) (K : ℕ)
    (h : (K = 0 ∧ buf ≠ []) ∨ extracted.length < K) :
    reduce_colours buf extracted K = none := by
  unfold reduce_colours
  rcases h with ⟨hK, hbuf⟩ | hlen
  · subst hK
    rw [if_pos (Nat.zero_le _)]
    obtain ⟨p, ps, rfl⟩ := List.exists_cons_of_ne_nil hbuf
    simp [quantize, set_closest_colour]
  · rw [if_neg (by omega)]

/-- C3 amended witness: the K = 0 panic at a concrete one-pixel buffer. -/
theorem reduce_colours_out_of_bounds_witness :
    reduce_colours [⟨1, 1, 1⟩] [⟨2, 2, 2⟩] 0 = none :=
  reduce_colours_out_of_bounds [⟨1, 1, 1⟩] [⟨2, 2, 2⟩] 0 (by decide)

/-- A pixel buffer with its dimensions, as `image::DynamicImage` presents
it to `add_grid_to_image`: a width, a height, and a colour per coordinate. -/
structure Img where
  width : ℕ
  height : ℕ
  pix : ℕ → ℕ → Rgb

/-- Read one pixel, as `GenericImageView::get_pixel`. -/
def getPixel (img : Img) (x y : ℕ) : Rgb := img.pix x y

/-- One call `draw_line_segment_mut(image, (0.0, yf), (width as f32, yf), black)`
of `add_grid_to_image`.  `imageproc`'s Bresenham iterator truncates the
`f32` endpoints to integers (`y0 as i32`), walks `x` from `0` to `width`
inclusive with the `y` error term constantly zero for a horizontal segment,
and writes only pixels passing the in-bounds test `x < width && y < height`;
so exactly the pixels `(x, trunc yf)` with `x < width`, and only when
`trunc yf < height`, turn black. -/
def draw_horizontal_line (img : Img) (r : ℕ) : Img :=
  { img with pix := fun x y =>
      if x < img.width ∧ y = r ∧ r < img.height then blackRgb else img.pix x y }

/-- One call `draw_line_segment_mut(image, (xf, 0.0), (xf, height as f32), black)`:
the steep-segment branch of the Bresenham iterator walks `y` from `0` to
`height` inclusive at the truncated column, bounds-checked per pixel. -/
def draw_vertical_line (img : Img) (c : ℕ) : Img :=
  { img with pix := fun x y =>
      if x = c ∧ c < img.width ∧ y < img.height then blackRgb else img.pix x y }

/-- Embedding of `add_grid_to_image` from `src/src/utils.rs`.  The source
computes the cell pitch in `f32` (`width as f32 / grid_width as f32`) and
passes `i as f32 * pixel_height_size` as the line coordinate, which the
drawing primitive truncates; `trunc (i * (h / g))` over the reals is
`(i * h) / g` in natural division, and for the image sizes involved the
`f32` rounding of the two operations never moves the product across an
integer boundary, so the `ℕ` expression `i * h / g` is the drawn
coordinate. -/
def add_grid_to_image (img : Img) (grid_width grid_height : ℕ) : Img :=
  let width := img.width
  let height := img.height
  let img1 := (List.range grid_height).foldl
    (fun im i => draw_horizontal_line im (i * height / grid_height)) img
  (List.range grid_width).foldl
    (fun im j => draw_vertical_line im (j * width / grid_width)) img1

lemma draw_horizontal_pix (img : Img) (r x y : ℕ) :
    (draw_horizontal_line img r).pix x y =
      if x < img.width ∧ y = r ∧ r < img.height then blackRgb else img.pix x y := rfl

lemma draw_vertical_pix (img : Img) (c x y : ℕ) :
    (draw_vertical_line img c).pix x y =
      if x = c ∧ c < img.width ∧ y < img.height then blackRgb else img.pix x y := rfl

lemma foldH_width (f : ℕ → ℕ) : ∀ (n : ℕ) (img : Img),
    ((List.range n).foldl (fun im i => draw_horizontal_line im (f i)) img).width =
      img.width := by
  intro n
  induction n with
  | zero => intro img; rfl
  | succ n ih =>
    intro img
    rw [List.range_succ, List.foldl_append, List.foldl_cons, List.foldl_nil]
    exact ih img

lemma foldH_height (f : ℕ → ℕ) : ∀ (n : ℕ) (img : Img),
    ((List.range n).foldl (fun im i => draw_horizontal_line im (f i)) img).height =
      img.height := by
  intro n
  induction n with
  | zero => intro img; rfl
  | succ n ih =>
    intro img
    rw [List.range_succ, List.foldl_append, List.foldl_cons, List.foldl_nil]
    exact ih img

lemma foldV_width (f : ℕ → ℕ) : ∀ (n : ℕ) (img : Img),
    ((List.range n).foldl (fun im j => draw_vertical_line im (f j)) img).width =
      img.width := by
  intro n
  induction n with
  | zero => intro img; rfl
  | succ n ih =>
    intro img
    rw [List.range_succ, List.foldl_append, List.foldl_cons, List.foldl_nil]
    exact ih img

lemma foldH_pix_black (f : ℕ → ℕ) : ∀ (n : ℕ) (img : Img) (x y : ℕ),
    x < img.width → y < img.height → (∃ i, i < n ∧ f i = y) →
    ((List.range n).foldl (fun im i => draw_horizontal_line im (f i)) img).pix x y =
      blackRgb := by
  intro n
  induction n with
  | zero =>
    intro img x y _ _ hex
    obtain ⟨i, hi, _⟩ := hex
    omega
  | succ n ih =>
    intro img x y hx hy hex
    rw [List.range_succ, List.foldl_append, List.foldl_cons, List.foldl_nil,
      draw_horizontal_pix, foldH_width, foldH_height]
    obtain ⟨i, hi, hfi⟩ := hex
    rcases Nat.lt_succ_iff_lt_or_eq.mp hi with hi' | hi'
    · rw [ih img x y hx hy ⟨i, hi', hfi⟩]
      exact ite_self _
    · subst hi'
      rw [if_pos ⟨hx, hfi.symm, by rw [hfi]; exact hy⟩]

lemma foldH_pix_frame (f : ℕ → ℕ) : ∀ (n : ℕ) (img : Img) (x y : ℕ),
    (∀ i, i < n → y ≠ f i) →
    ((List.range n).foldl (fun im i => draw_horizontal_line im (f i)) img).pix x y =
      img.pix x y := by
  intro n
  induction n with
  | zero => intro img x y _; rfl
  | succ n ih =>
    intro img x y hoff
    rw [List.range_succ, List.foldl_append, List.foldl_cons, List.foldl_nil,
      draw_horizontal_pix]
    rw [if_neg (fun hc => hoff n (Nat.lt_succ_self n) hc.2.1)]
    exact ih img x y (fun i hi => hoff i (Nat.lt_succ_of_lt hi))

lemma foldV_height (f : ℕ → ℕ) : ∀ (n : ℕ) (img : Img),
    ((List.range n).foldl (fun im j => draw_vertical_line im (f j)) img).height =
      img.height := by
  intro n
  induction n with
  | zero => intro img; rfl
  | succ n ih =>
    intro img
    rw [List.range_succ, List.foldl_append, List.foldl_cons, List.foldl_nil]
    exact ih img

lemma foldV_pix_black (f : ℕ → ℕ) : ∀ (n : ℕ) (img : Img) (x y : ℕ),
    x < img.width → y < img.height → (∃ j, j < n ∧ f j = x) →
    ((List.range n).foldl (fun im j => draw_vertical_line im (f j)) img).pix x y =
      blackRgb := by
  intro n
  induction n with
  | zero =>
    intro img x y _ _ hex
    obtain ⟨j, hj, _⟩ := hex
    omega
  | succ n ih =>
    intro img x y hx hy hex
    rw [List.range_succ, List.foldl_append, List.foldl_cons, List.foldl_nil,
      draw_vertical_pix, foldV_width, foldV_height]
    obtain ⟨j, hj, hfj⟩ := hex
    rcases Nat.lt_succ_iff_lt_or_eq.mp hj with hj' | hj'
    · rw [ih img x y hx hy ⟨j, hj', hfj⟩]
      exact ite_self _
    · subst hj'
      rw [if_pos ⟨hfj.symm, by rw [hfj]; exact hx, hy⟩]

lemma foldV_pix_frame (f : ℕ → ℕ) : ∀ (n : ℕ) (img : Img) (x y : ℕ),
    (∀ j, j < n → x ≠ f j) →
    ((List.range n).foldl (fun im j => draw_vertical_line im (f j)) img).pix x y =
      img.pix x y := by
  intro n
  induction n with
  | zero => intro img x y _; rfl
  | succ n ih =>
    intro img x y hoff
    rw [List.range_succ, List.foldl_append, List.foldl_cons, List.foldl_nil,
      draw_vertical_pix]
    rw [if_neg (fun hc => hoff n (Nat.lt_succ_self n) hc.1)]
    exact ih img x y (fun j hj => hoff j (Nat.lt_succ_of_lt hj))

lemma foldV_pix_keep (f : ℕ → ℕ) : ∀ (n : ℕ) (img : Img) (x y : ℕ),
    img.pix x y = blackRgb →
    ((List.range n).foldl (fun im j => draw_vertical_line im (f j)) img).pix x y =
      blackRgb := by
  intro n
  induction n with
  | zero => intro img x y h; exact h
  | succ n ih =>
    intro img x y h
    rw [List.range_succ, List.foldl_append, List.foldl_cons, List.foldl_nil,
      draw_vertical_pix]
    rw [ih img x y h]
    exact ite_self _

/-- C5 amended.  For a buffer with positive dimensions, `add_grid_to_image`
paints black, for every `i < grid_height`, the full-width horizontal line
at row `i * height / grid_height` (the truncated floating-point product
`i * (height / grid_height)`, NOT the claim's `i * floor(height /
grid_height)`), and for every `j < grid_width`, the full-height vertical
line at column `j * width / grid_width`; the `i = 0` / `j = 0` lines lie on
the image border. -/
theorem add_grid_lines_black (img : Img) (grid_width grid_height : ℕ)
    (hw : 0 < img.width) (hh : 0 < img.height) :
    (∀ i x, i < grid_height → x < img.width →
      getPixel (add_grid_to_image img grid_width grid_height) x
        (i * img.height / grid_height) = blackRgb) ∧
    (∀ j y, j < grid_width → y < img.height →
      getPixel (add_grid_to_image img grid_width grid_height)
        (j * img.width / grid_width) y = blackRgb) := by
  constructor
  · intro i x hi hx
    have hylt : i * img.height / grid_height < img.height := by
      rw [Nat.div_lt_iff_lt_mul (by omega), Nat.mul_comm img.height grid_height]
      exact mul_lt_mul_of_pos_right hi hh
    unfold add_grid_to_image getPixel
    exact foldV_pix_keep _ _ _ _ _
      (foldH_pix_black _ _ img x _ hx hylt ⟨i, hi, rfl⟩)
  · intro j y hj hy
    have hxlt : j * img.width / grid_width < img.width := by
      rw [Nat.div_lt_iff_lt_mul (by omega), Nat.mul_comm img.width grid_width]
      exact mul_lt_mul_of_pos_right hj hw
    unfold add_grid_to_image getPixel
    refine foldV_pix_black _ _ _ _ _ ?_ ?_ ⟨j, hj, rfl⟩
    · rw [foldH_width]
      exact hxlt
    · rw [foldH_height]
      exact hy

/-- A concrete all-white 5 by 5 buffer. -/
def img5 : Img := ⟨5, 5, fun _ _ => whiteRgb⟩

/-- C5 amended witness: on the 5 by 5 buffer with a 3 by 3 grid, the
horizontal line for i = 2 sits at row 2 * 5 / 3 = 3 and is black across
the full width (here at x = 4). -/
theorem add_grid_lines_black_witness :
    getPixel (add_grid_to_image img5 3 3) 4 (2 * img5.height / 3) = blackRgb :=
  (add_grid_lines_black img5 3 3 (by decide) (by decide)).1 2 4 (by decide) (by decide)

/-- C5 counterexample.  The claim places the grid lines at multiples of the
integer-division cell pitch: rows `i * floor(height / grid_height)` and
columns `j * floor(width / grid_width)`.  On a 5 by 5 image with a 3 by 3
grid those formulas give rows and columns 0, 1, 2 only.  The code instead
computes the pitch by floating-point division (5/3), so its third
horizontal line lands at `trunc (2 * (5 / 3)) = 3`: the pixel (4, 3) —
which was white, lies on no claimed line (3 is not a claimed row
coordinate, 4 not a claimed column coordinate), and should therefore stay
white under the claim — is painted black. -/
theorem add_grid_float_pitch_counterexample :
    getPixel (add_grid_to_image img5 3 3) 4 3 = blackRgb ∧
      getPixel img5 4 3 = whiteRgb ∧
      whiteRgb ≠ blackRgb ∧
      3 ∉ (List.range 3).map (fun i => i * (img5.height / 3)) ∧
      4 ∉ (List.range 3).map (fun j => j * (img5.width / 3)) := by
  decide

/-- C10.  For positive grid dimensions, `add_grid_to_image` only mutates
pixels on one of the drawn lines: a pixel whose row is none of the drawn
horizontal line rows and whose column is none of the drawn vertical line
columns keeps exactly its prior colour. -/
theorem add_grid_frame (img : Img) (grid_width grid_height x y : ℕ)
    (_hgw : 0 < grid_width) (_hgh : 0 < grid_height)
    (hrow : ∀ i, i < grid_height → y ≠ i * img.height / grid_height)
    (hcol : ∀ j, j < grid_width → x ≠ j * img.width / grid_width) :
    getPixel (add_grid_to_image img grid_width grid_height) x y = getPixel img x y := by
  unfold add_grid_to_image getPixel
  rw [foldV_pix_frame _ _ _ x y hcol]
  exact foldH_pix_frame _ _ img x y hrow

/-- C10 witness: the pixel (4, 4) of the 5 by 5 buffer lies on none of the
3 by 3 grid lines (rows and columns 0, 1, 3) and keeps its colour. -/
theorem add_grid_frame_witness :
    getPixel (add_grid_to_image img5 3 3) 4 4 = getPixel img5 4 4 :=
  add_grid_frame img5 3 3 4 4 (by decide) (by decide) (by decide) (by decide)

/-- Embedding of the `Error` enum of `src/intarsia/src/err.rs`.  Note that
it has no `PaletteTooSmall` and no `InvalidDimensions` variant. -/
inductive Error where
  | ExistsAlready
  | DoesNotExist
  | Generic (msg : String)
  | InvalidProjectPath (msg : String)
  | DecodingError (msg : String)
  | EmptyOriginal
  | EmptyProcessed
  | OpenFailure (msg : String)
  | ColourReductionErr (msg : String)
  | PlotterError (msg : String)
deriving DecidableEq, Repr

/-- The `Display` rendering of an `Error` (`thiserror`'s `#[error(..)]`
format strings, with the literal backquote decoration dropped), as used by
`e.to_string()` when `transform_image` wraps the `reduce_colours` error. -/
def Error.describe : Error → String
  | .ExistsAlready => "Project exists already!"
  | .DoesNotExist => "Project does not exist yet!"
  | .Generic msg => msg
  | .InvalidProjectPath msg => "Invalid project path: " ++ msg
  | .DecodingError msg => "Encountered a decoding error whilst reading the image: " ++ msg
  | .EmptyOriginal => "There is no original image to show in this project!"
  | .EmptyProcessed => "There is no processed image to show in this project!"
  | .OpenFailure msg => "Could not show image: " ++ msg
  | .ColourReductionErr msg => "Could not reduce the colours of this image: " ++ msg
  | .PlotterError msg => "Encountered a plotting error: " ++ msg

/-- The pipeline stages of section 4.4 of the design, in the vocabulary of
the orchestrator `transform_image`. -/
inductive Stage where
  | blur
  | resizeDown
  | resizeUp
  | quantize
  | grid
  | axes
deriving DecidableEq, Repr

/-- The observable outcome of a `transform_image` run: a returned buffer,
a returned `Err(..)` value, or a process abort through a panicking
`.unwrap()`. -/
inductive Outcome (α : Type) where
  | ok (val : α)
  | err (e : Error)
  | crashed
deriving DecidableEq, Repr

/-- Truth value of "the run ended in a returned error result". -/
def Outcome.isErr {α : Type} : Outcome α → Bool
  | .err _ => true
  | _ => false

/-- The external collaborators `transform_image` calls, over an abstract
buffer type: buffer dimensions, `image::imageops::blur` (radius 3.0),
`resize_exact(w, h, FilterType::Nearest)`, the fallible PNG `save`, the
whole `reduce_colours` stage (palette extraction plus quantization plus its
disk round trips), `add_grid_to_image`, and `plot_image_with_axes`.  The
orchestration claims are proved for every behaviour of these collaborators. -/
structure Stages (Buf : Type) where
  widthF : Buf → ℕ
  heightF : Buf → ℕ
  blurF : Buf → Buf
  resizeF : ℕ → ℕ → Buf → Buf
  saveF : Buf → Except String Unit
  reduceColoursF : Buf → ℕ → Except Error Buf
  addGridF : Buf → ℕ → ℕ → Buf
  plotAxesF : ℕ → ℕ → Except Error Unit

/-- Embedding of `transform_image` from `src/intarsia/src/intarsia.rs`,
line by line, together with the list of pipeline stages it executed:

1. capture `width`/`height` of the original;
2. blur; 3. `resize_exact(output_width, output_height)`; save
`resized_down.png` (a save error returns `Err(Generic(..))`);
4. `resize_exact(width, height)` back up; save `resized_up.png`;
5. `reduce_colours` on the resampled buffer (an error returns
`Err(ColourReductionErr(e.to_string()))`);
6. `add_grid_to_image(output_width, output_height)`; save `processed.png`;
7. if `add_axes`, `plot_image_with_axes(..).unwrap()` — a plotting error
panics (`Outcome.crashed`) instead of being returned. -/
def transform_image {Buf : Type} (st : Stages Buf) (orig : Buf)
    (output_width output_height colours : ℕ) (add_axes : Bool) :
    List Stage × Outcome Buf :=
  let width := st.widthF orig
  let height := st.heightF orig
  let i1 := st.blurF orig
  let i2 := st.resizeF output_width output_height i1
  match st.saveF i2 with
  | .error e => ([.blur, .resizeDown], .err (.Generic e))
  | .ok _ =>
    let i3 := st.resizeF width height i2
    match st.saveF i3 with
    | .error e => ([.blur, .resizeDown, .resizeUp], .err (.Generic e))
    | .ok _ =>
      match st.reduceColoursF i3 colours with
      | .error e =>
        ([.blur, .resizeDown, .resizeUp, .quantize], .err (.ColourReductionErr e.describe))
      | .ok i4 =>
        let i5 := st.addGridF i4 output_width output_height
        match st.saveF i5 with
        | .error e =>
          ([.blur, .resizeDown, .resizeUp, .quantize, .grid], .err (.Generic e))
        | .ok _ =>
          if add_axes then
            match st.plotAxesF output_width output_height with
            | .error _ =>
              ([.blur, .resizeDown, .resizeUp, .quantize, .grid, .axes], .crashed)
            | .ok _ =>
              ([.blur, .resizeDown, .resizeUp, .quantize, .grid, .axes], .ok i5)
          else ([.blur, .resizeDown, .resizeUp, .quantize, .grid], .ok i5)

/-- C2.  When every stage succeeds, `transform_image` executes exactly
blur, resize down to `output_width` by `output_height`, resize back up to
the original `width` by `height`, colour quantization — applied to the
already-resampled buffer `resizeF width height (resizeF ow oh (blurF
orig))`, not to `orig` — then the grid overlay, and the axis stage exactly
when `add_axes` is true; no other stage is skipped, and the final buffer is
the grid overlay of the quantization result. -/
theorem transform_image_order {Buf : Type} (st : Stages Buf) (orig : Buf)
    (output_width output_height colours : ℕ) (add_axes : Bool) (q : Buf)
    (hsave : ∀ im, st.saveF im = Except.ok ())
    (hq : st.reduceColoursF
        (st.resizeF (st.widthF orig) (st.heightF orig)
          (st.resizeF output_width output_height (st.blurF orig))) colours =
      Except.ok q)
    (hax : st.plotAxesF output_width output_height = Except.ok ()) :
    transform_image st orig output_width output_height colours add_axes =
      ([Stage.blur, Stage.resizeDown, Stage.resizeUp, Stage.quantize, Stage.grid]
          ++ (if add_axes then [Stage.axes] else []),
        Outcome.ok (st.addGridF q output_width output_height)) := by
  cases add_axes <;>
    simp [transform_image, hsave, hq, hax]

/-- A collaborator family over `Buf := ℕ` in which every external call
succeeds, with injective enough arithmetic to pin the data flow. -/
def stOk : Stages ℕ where
  widthF := fun im => im
  heightF := fun im => im
  blurF := fun im => im + 1
  resizeF := fun w h im => im + 10 * w + 100 * h
  saveF := fun _ => Except.ok ()
  reduceColoursF := fun im colours => Except.ok (im * 1000 + colours)
  addGridF := fun im w h => im * 1000000 + w + h
  plotAxesF := fun _ _ => Except.ok ()

/-- C2 witness: a concrete all-successful run with axes enabled.  The
original "buffer" 3 has width = height = 3; blur gives 4; resize down to
4 by 5 gives 544; resize back up gives 874; quantization with 2 colours
gives 874002; the grid overlay gives 874002000009. -/
theorem transform_image_order_witness :
    transform_image stOk 3 4 5 2 true =
      ([Stage.blur, Stage.resizeDown, Stage.resizeUp, Stage.quantize, Stage.grid,
          Stage.axes],
        Outcome.ok 874002000009) :=
  transform_image_order stOk 3 4 5 2 true 874002 (fun _ => rfl) rfl rfl

/-- C6 amended.  `transform_image` propagates the first failure of every
fallible stage before axis annotation immediately as its own error result,
running no later stage — in source order: a failing save of the
down-resized buffer returns `Err(Generic(..))` right after blur and
resize-down; a failing save of the up-resized buffer returns right after
resize-up; a failing quantization stage returns `ColourReductionErr`
wrapping the stage's message, running neither the grid overlay nor the
axis stage; a failing save of the grid-overlaid buffer returns right after
the grid stage, running no axis stage.  An axis-annotation failure,
however, aborts through the panicking `.unwrap()` — a hard crash with no
fallback rendering, not a returned error result. -/
theorem transform_image_fail_fast {Buf : Type} (st : Stages Buf) (orig : Buf)
    (output_width output_height colours : ℕ) :
    (∀ (e : String) (add_axes : Bool),
      st.saveF (st.resizeF output_width output_height (st.blurF orig)) =
        Except.error e →
      transform_image st orig output_width output_height colours add_axes =
        ([Stage.blur, Stage.resizeDown], Outcome.err (Error.Generic e))) ∧
    (∀ (e : String) (add_axes : Bool),
      st.saveF (st.resizeF output_width output_height (st.blurF orig)) =
        Except.ok () →
      st.saveF (st.resizeF (st.widthF orig) (st.heightF orig)
          (st.resizeF output_width output_height (st.blurF orig))) =
        Except.error e →
      transform_image st orig output_width output_height colours add_axes =
        ([Stage.blur, Stage.resizeDown, Stage.resizeUp],
          Outcome.err (Error.Generic e))) ∧
    (∀ (e : Error) (add_axes : Bool),
      st.saveF (st.resizeF output_width output_height (st.blurF orig)) =
        Except.ok () →
      st.saveF (st.resizeF (st.widthF orig) (st.heightF orig)
          (st.resizeF output_width output_height (st.blurF orig))) =
        Except.ok () →
      st.reduceColoursF
          (st.resizeF (st.widthF orig) (st.heightF orig)
            (st.resizeF output_width output_height (st.blurF orig))) colours =
        Except.error e →
      transform_image st orig output_width output_height colours add_axes =
        ([Stage.blur, Stage.resizeDown, Stage.resizeUp, Stage.quantize],
          Outcome.err (Error.ColourReductionErr e.describe))) ∧
    (∀ (q : Buf) (e : String) (add_axes : Bool),
      st.saveF (st.resizeF output_width output_height (st.blurF orig)) =
        Except.ok () →
      st.saveF (st.resizeF (st.widthF orig) (st.heightF orig)
          (st.resizeF output_width output_height (st.blurF orig))) =
        Except.ok () →
      st.reduceColoursF
          (st.resizeF (st.widthF orig) (st.heightF orig)
            (st.resizeF output_width output_height (st.blurF orig))) colours =
        Except.ok q →
      st.saveF (st.addGridF q output_width output_height) = Except.error e →
      transform_image st orig output_width output_height colours add_axes =
        ([Stage.blur, Stage.resizeDown, Stage.resizeUp, Stage.quantize, Stage.grid],
          Outcome.err (Error.Generic e))) ∧
    (∀ (q : Buf) (e : Error),
      st.saveF (st.resizeF output_width output_height (st.blurF orig)) =
        Except.ok () →
      st.saveF (st.resizeF (st.widthF orig) (st.heightF orig)
          (st.resizeF output_width output_height (st.blurF orig))) =
        Except.ok () →
      st.reduceColoursF
          (st.resizeF (st.widthF orig) (st.heightF orig)
            (st.resizeF output_width output_height (st.blurF orig))) colours =
        Except.ok q →
      st.saveF (st.addGridF q output_width output_height) = Except.ok () →
      st.plotAxesF output_width output_height = Except.error e →
      transform_image st orig output_width output_height colours true =
        ([Stage.blur, Stage.resizeDown, Stage.resizeUp, Stage.quantize, Stage.grid,
            Stage.axes],
          Outcome.crashed)) := by
  refine ⟨?_, ?_, ?_, ?_, ?_⟩
  · intro e add_axes h1
    simp [transform_image, h1]
  · intro e add_axes h1 h2
    simp [transform_image, h1, h2]
  · intro e add_axes h1 h2 hred
    simp [transform_image, h1, h2, hred]
  · intro q e add_axes h1 h2 hred h3
    simp [transform_image, h1, h2, hred, h3]
  · intro q e h1 h2 hred h3 hax
    simp [transform_image, h1, h2, hred, h3, hax]

/-- The message carried by a failing quantization stage in the concrete
fail-fast run. -/
def msgQuantFail : String := "quantization input could not be decoded"

/-- The message carried by a failing plotters backend in the concrete
axis-stage run. -/
def msgPlotFail : String := "bitmap backend failure"

/-- Collaborators over `Buf := ℕ` whose quantization stage fails. -/
def stQuantFail : Stages ℕ where
  widthF := fun im => im
  heightF := fun im => im
  blurF := fun im => im + 1
  resizeF := fun w h im => im + 10 * w + 100 * h
  saveF := fun _ => Except.ok ()
  reduceColoursF := fun _ _ => Except.error (Error.Generic msgQuantFail)
  addGridF := fun im w h => im * 1000000 + w + h
  plotAxesF := fun _ _ => Except.ok ()

/-- Collaborators over `Buf := ℕ` whose axis-annotation stage fails. -/
def stAxesFail : Stages ℕ where
  widthF := fun im => im
  heightF := fun im => im
  blurF := fun im => im + 1
  resizeF := fun w h im => im + 10 * w + 100 * h
  saveF := fun _ => Except.ok ()
  reduceColoursF := fun im colours => Except.ok (im * 1000 + colours)
  addGridF := fun im w h => im * 1000000 + w + h
  plotAxesF := fun _ _ => Except.error (Error.PlotterError msgPlotFail)

/-- The message carried by a failing PNG save in the concrete fail-fast
runs. -/
def msgSaveFail : String := "png encoder failure"

/-- Collaborators over `Buf := ℕ` whose every save fails, so the very
first save (of the down-resized buffer) stops the pipeline. -/
def stSave1Fail : Stages ℕ where
  widthF := fun im => im
  heightF := fun im => im
  blurF := fun im => im + 1
  resizeF := fun w h im => im + 10 * w + 100 * h
  saveF := fun _ => Except.error msgSaveFail
  reduceColoursF := fun im colours => Except.ok (im * 1000 + colours)
  addGridF := fun im w h => im * 1000000 + w + h
  plotAxesF := fun _ _ => Except.ok ()

/-- Collaborators over `Buf := ℕ` whose save fails exactly on the
up-resized buffer (value 874 in the concrete run below), so the second
save stops the pipeline. -/
def stSave2Fail : Stages ℕ where
  widthF := fun im => im
  heightF := fun im => im
  blurF := fun im => im + 1
  resizeF := fun w h im => im + 10 * w + 100 * h
  saveF := fun im => if im = 874 then Except.error msgSaveFail else Except.ok ()
  reduceColoursF := fun im colours => Except.ok (im * 1000 + colours)
  addGridF := fun im w h => im * 1000000 + w + h
  plotAxesF := fun _ _ => Except.ok ()

/-- Collaborators over `Buf := ℕ` whose save fails exactly on the
grid-overlaid buffer (value 874002000009 in the concrete run below), so
the save of `processed.png` stops the pipeline before the axis stage. -/
def stSave3Fail : Stages ℕ where
  widthF := fun im => im
  heightF := fun im => im
  blurF := fun im => im + 1
  resizeF := fun w h im => im + 10 * w + 100 * h
  saveF := fun im => if im = 874002000009 then Except.error msgSaveFail else Except.ok ()
  reduceColoursF := fun im colours => Except.ok (im * 1000 + colours)
  addGridF := fun im w h => im * 1000000 + w + h
  plotAxesF := fun _ _ => Except.error (Error.PlotterError msgPlotFail)

/-- C6 amended witness: five concrete runs, one per fallible step.  With
orig 3, output 4 by 5 and 2 colours the intermediate buffers are 544
(down-resized), 874 (up-resized), 874002 (quantized) and 874002000009
(grid-overlaid).  A failing first save stops after resize-down; a failing
second save stops after resize-up; a failing quantization stops after the
quantize stage; a failing third save stops after the grid stage; and a
failing axis stage crashes the run. -/
theorem transform_image_fail_fast_witness :
    (transform_image stSave1Fail 3 4 5 2 false =
      ([Stage.blur, Stage.resizeDown], Outcome.err (Error.Generic msgSaveFail))) ∧
    (transform_image stSave2Fail 3 4 5 2 false =
      ([Stage.blur, Stage.resizeDown, Stage.resizeUp],
        Outcome.err (Error.Generic msgSaveFail))) ∧
    (transform_image stQuantFail 3 4 5 2 false =
      ([Stage.blur, Stage.resizeDown, Stage.resizeUp, Stage.quantize],
        Outcome.err (Error.ColourReductionErr msgQuantFail))) ∧
    (transform_image stSave3Fail 3 4 5 2 false =
      ([Stage.blur, Stage.resizeDown, Stage.resizeUp, Stage.quantize, Stage.grid],
        Outcome.err (Error.Generic msgSaveFail))) ∧
    (transform_image stAxesFail 3 4 5 2 true =
      ([Stage.blur, Stage.resizeDown, Stage.resizeUp, Stage.quantize, Stage.grid,
          Stage.axes],
        Outcome.crashed)) :=
  ⟨(transform_image_fail_fast stSave1Fail 3 4 5 2).1 msgSaveFail false rfl,
    (transform_image_fail_fast stSave2Fail 3 4 5 2).2.1 msgSaveFail false rfl rfl,
    (transform_image_fail_fast stQuantFail 3 4 5 2).2.2.1
      (Error.Generic msgQuantFail) false rfl rfl rfl,
    (transform_image_fail_fast stSave3Fail 3 4 5 2).2.2.2.1 874002 msgSaveFail false
      rfl rfl rfl rfl,
    (transform_image_fail_fast stAxesFail 3 4 5 2).2.2.2.2 874002
      (Error.PlotterError msgPlotFail) rfl rfl rfl rfl rfl⟩

/-- C6 counterexample.  The claim says `transform_image` propagates every
stage failure, including an axis-annotation failure, "as its own error
result".  In the source the axis stage is called as
`plot_image_with_axes(..).unwrap()`: a failure panics the process.  In
this concrete run with a failing plotters backend the outcome is the
crash, and it is not an error result. -/
theorem transform_image_axes_crash_counterexample :
    (transform_image stAxesFail 3 4 5 2 true).2 = Outcome.crashed ∧
      Outcome.isErr (transform_image stAxesFail 3 4 5 2 true).2 = false := by
  constructor <;> rfl

/-- Collaborators over `Buf := ℕ` in which every external call succeeds
and the original buffer reports dimensions 2 by 2, for the dimension-check
counterexample. -/
def stSmallImage : Stages ℕ where
  widthF := fun _ => 2
  heightF := fun _ => 2
  blurF := fun im => im + 1
  resizeF := fun w h im => im + 10 * w + 100 * h
  saveF := fun _ => Except.ok ()
  reduceColoursF := fun im colours => Except.ok (im * 1000 + colours)
  addGridF := fun im w h => im * 1000000 + w + h
  plotAxesF := fun _ _ => Except.ok ()

/-- C4 counterexample.  The claim says the pipeline fails with an
`InvalidDimensions` error when a grid dimension exceeds the original
image's dimensions.  `transform_image` contains no dimension check of any
kind (and the crate's `Error` enum has no `InvalidDimensions` variant), and
the real collaborators all succeed on this input — `resize_exact` happily
scales a 2 by 2 image to 5 by 5 and back and every save succeeds, as
modelled by `stSmallImage` — so the concrete 5 by 5-grid run over a 2 by 2
original completes with an `ok` buffer: no failure, no dimension error. -/
theorem transform_image_no_dim_check_counterexample :
    transform_image stSmallImage 7 5 5 2 false =
      ([Stage.blur, Stage.resizeDown, Stage.resizeUp, Stage.quantize, Stage.grid],
        Outcome.ok 778002000010) ∧
      Outcome.isErr (transform_image stSmallImage 7 5 5 2 false).2 = false := by
  constructor <;> rfl

/-- C4 amended.  The pipeline performs no grid-dimension validation at all
(no `InvalidDimensions` variant even exists in the crate's `Error` enum):
first, `add_grid_to_image` called with both grid dimensions zero draws
nothing and returns the buffer unchanged — its line loops are empty and its
pitch division is floating-point, so no divide-by-zero crash occurs —
and second, `transform_image` invoked with `grid_width = grid_height = 0`
runs every stage and completes with an `ok` result whenever the external
save and quantization collaborators succeed; any failure on degenerate
dimensions originates in those external stages (surfaced as `Generic`,
i.e. a codec failure), never as a dimension error of the pipeline itself. -/
theorem transform_image_no_validation :
    (∀ img : Img, add_grid_to_image img 0 0 = img) ∧
    (∀ (Buf : Type) (st : Stages Buf) (orig : Buf) (colours : ℕ) (q : Buf),
      (∀ im, st.saveF im = Except.ok ()) →
      st.reduceColoursF
          (st.resizeF (st.widthF orig) (st.heightF orig)
            (st.resizeF 0 0 (st.blurF orig))) colours = Except.ok q →
      transform_image st orig 0 0 colours false =
        ([Stage.blur, Stage.resizeDown, Stage.resizeUp, Stage.quantize, Stage.grid],
          Outcome.ok (st.addGridF q 0 0))) := by
  constructor
  · intro img
    rfl
  · intro Buf st orig colours q hsave hred
    simp [transform_image, hsave, hred]

/-- C4 amended witness: the zero-dimension grid overlay leaves the concrete
5 by 5 buffer untouched, and a concrete all-successful `transform_image`
run with both grid dimensions zero completes with an `ok` result. -/
theorem transform_image_no_validation_witness :
    add_grid_to_image img5 0 0 = img5 ∧
      transform_image stSmallImage 3 0 0 2 false =
        ([Stage.blur, Stage.resizeDown, Stage.resizeUp, Stage.quantize, Stage.grid],
          Outcome.ok 224002000000) :=
  ⟨transform_image_no_validation.1 img5,
    transform_image_no_validation.2 ℕ stSmallImage 3 2 224002 (fun _ => rfl) rfl⟩

end Intarsia
